import Mathlib

/-!
Verification development for the calbox expression calculator
(`src/unnamed/part_000`, mirrored in `src/web/calculator.js`; the two copies
share the same core logic).

The pipeline modelled here, translated from the JavaScript source:
tokenizer (`_tokenize`), precedence-climbing compiler (`_valueExpression`,
`_PrecedenceGroup`, `_parseTokens`), the stack-machine execution model
(`_tokenDefinitions` perform rules, `_StackCalculationContext`,
`_DefaultCalculationContext`), and the constant-folding optimizer
(`_OptimizationContext`, `Program.optimize`).

Modelling conventions:
* JavaScript numbers (IEEE 754 doubles) are modelled by `ℚ`.  Every numeric
  value appearing in the claims is a small integer, on which double and
  rational arithmetic agree exactly.  `Infinity`/`NaN` (division by zero,
  fractional or invalid exponents) are outside the model: `ℚ` division by
  zero yields 0 and `jsPow` yields 0 on a non-integral exponent; no claim
  exercises those points.
* A thrown JavaScript exception is modelled by `Except.error` with an `Err`
  value naming the exception: `CalculationParseException` from the lexer
  (`Err.strangeChar`) and from the bracket check (`Err.noClosingBracket`),
  `CalculationException` from assigning to a literal (`Err.literalAssign`),
  and `TypeError` from reading a property of `undefined`/`null`
  (`Err.typeErrorUndefined` — out-of-range token access or `.value` on the
  `null` returned by `popStack` of an empty stack).
* Mutation is modelled by explicit state passing.  Within a single
  `execute`/`optimize` call every `_VariableReference` the interpreter
  creates is bound to the one running context (`identifier` performs
  `new _VariableReference(op.value, n)` with `n` the running context, and
  `bind` keeps the origin context), so the execution state models that one
  context; the general multi-context behaviour of `bind`/`pushStack` is
  modelled separately (`BoundElem` below) for the rebinding claim.
* The parser's mutual recursion is driven by a fuel argument; the fuel
  passed by `parseTokens` strictly exceeds the recursion depth on every
  input used in a theorem (all parser theorems are about token lists of
  concrete shape, where the recursion visibly terminates).
-/

/-- The `_Kind` enum of the source (opcode and token kinds). -/
inductive Kind where
  | numberLiteral
  | opAdd
  | opSubtract
  | opMultiply
  | opDivide
  | opPower
  | identifier
  | opAssign
  | openBracket
  | closeBracket
deriving DecidableEq, Repr

/-- The exceptions the source can throw, see the module docstring. -/
inductive Err where
  | strangeChar (c : Char) (buffer : String) (offset : ℕ)
  | noClosingBracket
  | typeErrorUndefined
  | literalAssign
  | noPerform
  | badPayload
  | outOfFuel
deriving DecidableEq, Repr

/-- `true` exactly for the errors that are `CalculationParseException`s in the
source: the lexer's strange-character error and the missing-closing-bracket
error.  (`typeErrorUndefined` models a JavaScript `TypeError`, which is not a
`CalculationParseException`.) -/
def Err.isParseException : Err → Bool
  | .strangeChar _ _ _ => true
  | .noClosingBracket => true
  | _ => false

/-- `_Token`: a kind plus a raw value, `null` for symbol tokens. -/
structure Token where
  kind : Kind
  value : Option String
deriving DecidableEq, Repr

/-- The payload of an `_Opcode`: `null`, a string, or a number. -/
inductive OpVal where
  | null
  | str (s : String)
  | num (q : ℚ)
deriving DecidableEq, Repr

/-- `_Opcode`: a kind plus an optional payload. -/
structure Opcode where
  kind : Kind
  val : OpVal
deriving DecidableEq, Repr

/-- `Program`: an immutable ordered opcode sequence (`this._ops`). -/
structure Program where
  ops : List Opcode
deriving DecidableEq, Repr

/-- `Program.numOpcodes`. -/
def Program.numOpcodes (p : Program) : ℕ := p.ops.length

/- ## Lexer (`_tokenize`) -/

/-- The symbolic token definitions of `_tokenDefinitions`, in definition
order, restricted to the entries with a non-null `symbol`. -/
def symList : List (Kind × List Char) :=
  [(.opAdd, ['+']), (.opSubtract, ['-']), (.opMultiply, ['*']),
   (.opDivide, ['/']), (.opPower, ['*', '*']), (.opAssign, ['=']),
   (.openBracket, ['(']), (.closeBracket, [')'])]

/-- `_findToken`: among the symbol definitions, keep the one matching at the
current position whose symbol is longest, scanning in definition order and
replacing only on strictly greater length.  (The source first narrows the
candidates to those whose first character equals the current character via
`_startCharacterTokens`; that index only removes symbols that fail the
`startsWith` test anyway, so folding over the full list is the same
computation.) -/
def findToken (rest : List Char) : Option (Kind × List Char) :=
  symList.foldl
    (fun acc kd =>
      if kd.2.isPrefixOf rest &&
          (match acc with
           | none => true
           | some m => decide (m.2.length < kd.2.length)) then
        some kd
      else acc)
    none

/-- Digits matched by `\d`. -/
def isDig (c : Char) : Bool := c.isDigit

/-- The number pattern `(?:0|[1-9]\d*)(?:\.\d+)?(?:[eE][+-]?\d+)?`, applied
sticky at the head of `cs`.  Returns the matched prefix and the rest, or
`none`.  The two optional groups contribute nothing when they cannot match
completely (mirroring regex backtracking: `"1."` matches just `"1"`). -/
def matchNumber (cs : List Char) : Option (List Char × List Char) :=
  match cs with
  | [] => none
  | c :: cs1 =>
    if c = '0' ∨ isDig c then
      let (intRest, afterInt) :=
        if c = '0' then (([] : List Char), cs1) else cs1.span isDig
      let intPart := c :: intRest
      let (fracPart, afterFrac) :=
        match afterInt with
        | '.' :: r =>
          let (ds, r2) := r.span isDig
          if ds = [] then ([], afterInt) else ('.' :: ds, r2)
        | _ => ([], afterInt)
      let (expPart, afterExp) :=
        match afterFrac with
        | e :: r =>
          if e = 'e' ∨ e = 'E' then
            match r with
            | s :: r2 =>
              if s = '+' ∨ s = '-' then
                let (ds, r3) := r2.span isDig
                if ds = [] then ([], afterFrac) else (e :: s :: ds, r3)
              else
                let (ds, r3) := r.span isDig
                if ds = [] then ([], afterFrac) else (e :: ds, r3)
            | [] => ([], afterFrac)
          else ([], afterFrac)
        | [] => ([], afterFrac)
      some (intPart ++ fracPart ++ expPart, afterExp)
    else none

/-- The identifier pattern `[_a-zA-Z][_a-zA-Z0-9]*`, sticky at the head. -/
def matchIdent (cs : List Char) : Option (List Char × List Char) :=
  match cs with
  | [] => none
  | c :: cs1 =>
    if c = '_' ∨ c.isAlpha then
      let (rest, after) := cs1.span (fun d => d = '_' ∨ d.isAlphanum)
      some (c :: rest, after)
    else none

/-- The loop body of `_tokenize`, one step per iteration of the source's
`for` loop: skip a space, else try a symbolic token (`_findToken`), else the
two pattern tokens in `_patternTokens` order (number, then identifier), else
throw.  `buffer` is the whole source (kept for the exception payload), `i`
the current index, `rest` the characters from `i` on.  `fuel` strictly
bounds the number of iterations; `tokenize` passes `length + 1`, and every
iteration consumes at least one character, so the fuel never runs out. -/
def tokenizeGo (buffer : String) : ℕ → List Char → ℕ → Except Err (List Token)
  | 0, _, _ => .error .outOfFuel
  | _ + 1, [], _ => .ok []
  | fuel + 1, c :: rs, i =>
    if c = ' ' then tokenizeGo buffer fuel rs (i + 1)
    else
      match findToken (c :: rs) with
      | some (k, s) => do
        let ts ← tokenizeGo buffer fuel ((c :: rs).drop s.length) (i + s.length)
        return ⟨k, none⟩ :: ts
      | none =>
        match matchNumber (c :: rs) with
        | some (m, _) => do
          let ts ← tokenizeGo buffer fuel ((c :: rs).drop m.length) (i + m.length)
          return ⟨.numberLiteral, some (String.mk m)⟩ :: ts
        | none =>
          match matchIdent (c :: rs) with
          | some (m, _) => do
            let ts ← tokenizeGo buffer fuel ((c :: rs).drop m.length) (i + m.length)
            return ⟨.identifier, some (String.mk m)⟩ :: ts
          | none => .error (.strangeChar c buffer i)

/-- `_tokenize`, collected into a list (the source yields lazily; the
consumer `Array.from` collects everything, so a list is the same data). -/
def tokenize (s : String) : Except Err (List Token) :=
  tokenizeGo s (s.data.length + 1) s.data 0

/- ## Token to opcode conversion (`_KindDefinition.toOpcode`, `_Token.toOpcode`) -/

/-- Digit list to natural number (`"123"` to `123`). -/
def digitsToNat (ds : List Char) : ℕ :=
  ds.foldl (fun n c => n * 10 + (c.toNat - '0'.toNat)) 0

/-- Models the JavaScript numeric conversion `+string` on the strings the
program actually builds: an optional sign, digits, an optional fraction and
an optional exponent.  The only strings ever passed to this conversion are
lexer-produced number literals (see `tokenToOpcode`), on which this is exact;
a string outside that grammar would be `NaN` in JavaScript, which has no
counterpart in `ℚ` (the function then returns the junk value computed from
its digitless parse, and no modelled code path reaches that case). -/
def parseNumStr (cs : List Char) : ℚ :=
  let (sgn, cs1) : ℚ × List Char :=
    match cs with
    | '-' :: r => (-1, r)
    | '+' :: r => (1, r)
    | _ => (1, cs)
  let (ip, cs2) := cs1.span isDig
  let (fp, cs3) :=
    match cs2 with
    | '.' :: r => r.span isDig
    | _ => ([], cs2)
  let e : ℤ :=
    match cs3 with
    | c :: r =>
      if c = 'e' ∨ c = 'E' then
        match r with
        | '-' :: ds => -(digitsToNat (ds.takeWhile isDig) : ℤ)
        | '+' :: ds => (digitsToNat (ds.takeWhile isDig) : ℤ)
        | ds => (digitsToNat (ds.takeWhile isDig) : ℤ)
      else 0
    | [] => 0
  let mant : ℚ := (digitsToNat ip : ℚ) + (digitsToNat fp : ℚ) / 10 ^ fp.length
  let scaled : ℚ :=
    if 0 ≤ e then mant * 10 ^ e.toNat else mant / 10 ^ (-e).toNat
  sgn * scaled

/-- JavaScript `+value` where `value` is a string or `null` (`+null` is 0). -/
def jsToNumber (v : Option String) : ℚ :=
  match v with
  | none => 0
  | some s => parseNumStr s.data

/-- `_Token.toOpcode` via `_kindDefs`: the `numberLiteral` definition
overrides the conversion to parse the raw text (`result.value =
+token.value`); every other kind uses the default, which copies the token's
kind and raw value verbatim. -/
def tokenToOpcode (k : Kind) (v : Option String) : Opcode :=
  if k = .numberLiteral then ⟨k, .num (jsToNumber v)⟩
  else ⟨k, match v with | some s => .str s | none => .null⟩

/- ## Compiler (`_valueExpression`, `_PrecedenceGroup`, `_parseTokens`) -/

/-- `tokens[i]` followed by a property access: out of range is `undefined`
in JavaScript and the subsequent `.kind`/`.value` access throws `TypeError`. -/
def getTok (tokens : List Token) (i : ℕ) : Except Err Token :=
  match tokens[i]? with
  | some t => .ok t
  | none => .error .typeErrorUndefined

/-- JavaScript template-literal stringification of a token's `value`
(`${null}` produces the string `"null"`). -/
def tokValueStr (t : Token) : String :=
  match t.value with
  | some s => s
  | none => "null"

/-- The kind sets of the `_PrecedenceGroup` chain
`new _PrecedenceGroup([opPower]).over([opMultiply, opDivide])
.over([opAdd, opSubtract]).over([opAssign])`:
`_expression` is the `opAssign` group and `parentChain` lists its parents,
nearest first. -/
def assignLevel : List Kind := [.opAssign]

/-- Kinds of the additive precedence group. -/
def addLevel : List Kind := [.opAdd, .opSubtract]

/-- Kinds of the multiplicative precedence group. -/
def mulLevel : List Kind := [.opMultiply, .opDivide]

/-- Kinds of the exponentiation precedence group. -/
def powLevel : List Kind := [.opPower]

/-- Parent chain of the `_expression` group, nearest parent first. -/
def parentChain : List (List Kind) := [addLevel, mulLevel, powLevel]

mutual

/-- `_valueExpression`: parse a primary.  An open bracket recurses into the
whole `_expression` chain and then requires a close bracket; an identifier
becomes its opcode; otherwise, a leading `opSubtract` token advances the
cursor, the token's value is rewritten to the template string
`(kind = opSubtract ? "-" : "") ++ tokens[cursor].value`, and the opcode is
built from that *same* token (so in the minus case the emitted opcode keeps
kind `opSubtract`).  Each function returns the opcodes it appended and the
new cursor. -/
def valueExpression : ℕ → List Token → ℕ → Except Err (List Opcode × ℕ)
  | 0, _, _ => .error .outOfFuel
  | fuel + 1, tokens, cursor => do
    let current ← getTok tokens cursor
    if current.kind = .openBracket then do
      let (ops1, c1) ← exprGroup fuel assignLevel parentChain tokens (cursor + 1) none
      let closing ← getTok tokens c1
      if closing.kind ≠ .closeBracket then .error .noClosingBracket
      else return (ops1, c1 + 1)
    else if current.kind = .identifier then
      return ([tokenToOpcode current.kind current.value], cursor + 1)
    else do
      let cursor1 := if current.kind = .opSubtract then cursor + 1 else cursor
      let numTok ← getTok tokens cursor1
      let newVal : String :=
        (if current.kind = .opSubtract then "-" else "") ++ tokValueStr numTok
      return ([tokenToOpcode current.kind (some newVal)], cursor1 + 1)

/-- `_PrecedenceGroup.expression` fused with `halfExpression`: parse the
term via the parent group (or `_valueExpression` at the innermost group),
append `lastTokenOp`'s opcode if present, and if tokens remain and the next
token's kind belongs to this group, recurse into this group past it. -/
def exprGroup : ℕ → List Kind → List (List Kind) → List Token → ℕ →
    Option Token → Except Err (List Opcode × ℕ)
  | 0, _, _, _, _, _ => .error .outOfFuel
  | fuel + 1, kinds, parents, tokens, cursor, lastTokenOp => do
    let (ops1, afterTerm) ←
      match parents with
      | p :: ps => exprGroup fuel p ps tokens cursor none
      | [] => valueExpression fuel tokens cursor
    let ops2 := ops1 ++
      (match lastTokenOp with
       | some t => [tokenToOpcode t.kind t.value]
       | none => [])
    if afterTerm < tokens.length then
      let t ← getTok tokens afterTerm
      if kinds.contains t.kind then do
        let (ops3, c3) ← exprGroup fuel kinds parents tokens (afterTerm + 1) (some t)
        return (ops2 ++ ops3, c3)
      else return (ops2, afterTerm)
    else return (ops2, afterTerm)

end

/-- `_parseTokens`: `_expression.expression(ops, tokens, 0)`.  The fuel
strictly bounds the recursion depth; `(length + 1) * 8` exceeds it on every
input a theorem below uses. -/
def parseTokens (tokens : List Token) : Except Err (List Opcode × ℕ) :=
  exprGroup ((tokens.length + 1) * 8) assignLevel parentChain tokens 0 none

/-- The `Program` constructor on a source string (`newProgram`): tokenize,
parse from cursor 0, and keep only the opcode list — the cursor returned by
`_parseTokens` is discarded, so trailing tokens are ignored. -/
def newProgram (source : String) : Except Err Program := do
  let tokens ← tokenize source
  let (ops, _cursor) ← parseTokens tokens
  return ⟨ops⟩

/-- JavaScript `left ** right` restricted to integral exponents: a natural
power, or the reciprocal of one for a negative integral exponent.  A
fractional exponent yields a real root (or `NaN`) in JavaScript, which has
no counterpart in `ℚ`; the 0 returned there is outside the modelled domain
and no claim reaches it. -/
def jsPow (l r : ℚ) : ℚ :=
  if r.den = 1 then
    if 0 ≤ r.num then l ^ r.num.toNat else (l ^ (-r.num).toNat)⁻¹
  else 0

/- ## Stack elements and calculation contexts -/

/-- `_StackElement` within one running context: a `_Literal` or a
`_VariableReference` (whose `context` back-reference is the running context,
see the module docstring). -/
inductive StackElem where
  | lit (v : ℚ)
  | varRef (name : String)
deriving DecidableEq, Repr

/-- `_StackElement.bind`: `_Literal.bind` returns `this`, and
`_VariableReference.bind` returns `new _VariableReference(this.name,
this.context)` — the same name and the *origin* context (the `context`
argument is unused in the source).  Within the one running context both are
the identity on the element's data. -/
def bindElem (e : StackElem) : StackElem :=
  match e with
  | .lit v => .lit v
  | .varRef n => .varRef n

/-- `_StackElement.toOpcode`. -/
def StackElem.toOpcode (e : StackElem) : Opcode :=
  match e with
  | .lit v => ⟨.numberLiteral, .num v⟩
  | .varRef n => ⟨.identifier, .str n⟩

/-- The `CalculationContext` operations used by the perform rules, over a
state type `σ`: the two context classes (`_DefaultCalculationContext` and
`_OptimizationContext`) instantiate it below, and the perform rules are
written once against it, mirroring the single dispatch table of the
source. -/
structure CtxOps (σ : Type) where
  popStack : σ → Option StackElem × σ
  pushStack : σ → StackElem → σ
  getRegister : σ → String → Option ℚ × σ
  setRegister : σ → String → ℚ → σ

/-- `_StackElement.value` read: a literal's stored value, or
`context.getRegister(name) ?? 0` for a variable reference. -/
def elemValue {σ : Type} (C : CtxOps σ) (e : StackElem) (s : σ) : ℚ × σ :=
  match e with
  | .lit v => (v, s)
  | .varRef n =>
    let (r, s1) := C.getRegister s n
    (r.getD 0, s1)

/-- `popStack().value`: popping an empty stack returns `null` and the
`.value` access then throws `TypeError`. -/
def popValue {σ : Type} (C : CtxOps σ) (s : σ) : Except Err (ℚ × σ) :=
  match C.popStack s with
  | (none, _) => .error .typeErrorUndefined
  | (some e, s1) => .ok (elemValue C e s1)

/-- The perform rules of `_tokenDefinitions`, dispatched on the opcode kind.
Operand evaluation order follows the JavaScript expressions: for the binary
operators the first pop yields the right operand.  `opAssign` pops the value
(reading it), then pops the target *without* reading it, and `target.value =
value` throws unless the target is a variable reference.  The bracket kinds
have no perform rule; executing one calls `undefined` in the source
(`TypeError`), modelled by `Err.noPerform`.  A `numberLiteral` opcode always
carries a `num` payload and an `identifier` opcode a `str` payload (the only
constructors of those opcodes produce these shapes); the `badPayload` arms
are unreachable. -/
def performOp {σ : Type} (C : CtxOps σ) (op : Opcode) (s : σ) : Except Err σ :=
  match op.kind with
  | .numberLiteral =>
    match op.val with
    | .num q => .ok (C.pushStack s (.lit q))
    | _ => .error .badPayload
  | .identifier =>
    match op.val with
    | .str n => .ok (C.pushStack s (.varRef n))
    | _ => .error .badPayload
  | .opAdd => do
    let (x, s1) ← popValue C s
    let (y, s2) ← popValue C s1
    return C.pushStack s2 (.lit (x + y))
  | .opSubtract => do
    let (x, s1) ← popValue C s
    let (y, s2) ← popValue C s1
    return C.pushStack s2 (.lit (-x + y))
  | .opMultiply => do
    let (x, s1) ← popValue C s
    let (y, s2) ← popValue C s1
    return C.pushStack s2 (.lit (x * y))
  | .opDivide => do
    let (a, s1) ← popValue C s
    let (b, s2) ← popValue C s1
    return C.pushStack s2 (.lit (b / a))
  | .opPower => do
    let (r, s1) ← popValue C s
    let (l, s2) ← popValue C s1
    return C.pushStack s2 (.lit (jsPow l r))
  | .opAssign => do
    let (v, s1) ← popValue C s
    match C.popStack s1 with
    | (none, _) => .error .typeErrorUndefined
    | (some (.lit _), _) => .error .literalAssign
    | (some (.varRef n), s2) =>
      let s3 := C.setRegister s2 n v
      return C.pushStack s3 (.lit v)
  | .openBracket => .error .noPerform
  | .closeBracket => .error .noPerform

/- ## The real execution context (`_DefaultCalculationContext`) -/

/-- State of a `_DefaultCalculationContext`: the evaluation stack (head is
the most recently pushed element, the end of the JavaScript array) and the
register map.  The map is modelled as a function, since only lookups are
observed (the source's `Map` insertion order is never consulted). -/
structure ExecCtx where
  stack : List StackElem
  regs : String → Option ℚ

/-- A fresh context, as built by `newCalculationContext()`. -/
def freshCtx : ExecCtx := ⟨[], fun _ => none⟩

/-- The `_DefaultCalculationContext` operations: `popStack` is
`_stack.pop() || null`; `pushStack` is `_stack.push(newElement.bind(this))`;
registers are a plain map. -/
def ExecOps : CtxOps ExecCtx where
  popStack s := (s.stack.head?, { s with stack := s.stack.tail })
  pushStack s e := { s with stack := bindElem e :: s.stack }
  getRegister s n := (s.regs n, s)
  setRegister s n v :=
    { s with regs := fun m => if m = n then some v else s.regs m }

/-- The opcode loop of `Program.execute`. -/
def runOps : List Opcode → ExecCtx → Except Err ExecCtx
  | [], s => .ok s
  | op :: rest, s => do
    let s1 ← performOp ExecOps op s
    runOps rest s1

/-- `Program.execute`: run every opcode against the context, then
`popStack().value` is the result.  The (mutated) context is returned
alongside, standing for the caller's reference to it. -/
def Program.execute (p : Program) (ctx : ExecCtx) : Except Err (ℚ × ExecCtx) := do
  let s ← runOps p.ops ctx
  popValue ExecOps s

/- ## The optimization context (`_OptimizationContext`) -/

/-- State of an `_OptimizationContext`: the symbolic stack, the (write-only)
`_popped` array, and the `_registerAccess` flag. -/
structure OptCtx where
  stack : List StackElem
  popped : List StackElem
  registerAccess : Bool
deriving DecidableEq, Repr

/-- The `_OptimizationContext` operations: `getRegister` flags the access
and returns 1; `setRegister` only flags; `popStack` records the popped
element in `_popped`; `pushStack` replaces the element by the
`"**unknown**"` variable reference when a register was accessed, clears the
flag and `_popped`, then pushes via the inherited (binding) push. -/
def OptOps : CtxOps OptCtx where
  popStack s :=
    match s.stack with
    | [] => (none, s)
    | e :: rest => (some e, { s with stack := rest, popped := s.popped ++ [e] })
  pushStack s e :=
    let pushed := if s.registerAccess then StackElem.varRef "**unknown**" else e
    { stack := bindElem pushed :: s.stack, popped := [], registerAccess := false }
  getRegister s _ := (some 1, { s with registerAccess := true })
  setRegister s _ _ := { s with registerAccess := true }

/-- `_OptimizationContext.topIsLiteral`: `_top instanceof _Literal`, where
`_top` on an empty stack is `undefined` (hence `false`). -/
def topIsLiteral (s : OptCtx) : Bool :=
  match s.stack with
  | .lit _ :: _ => true
  | _ => false

/-- `_OptimizationContext.topValue`; only read under `topIsLiteral`. -/
def topValue (s : OptCtx) : ℚ :=
  match s.stack with
  | .lit v :: _ => v
  | _ => 0

/-- `_OptimizationContext.stackSince(start)`: `_stack.slice(start)` in the
JavaScript bottom-first array order (our list is top-first). -/
def stackSince (s : OptCtx) (start : ℕ) : List StackElem :=
  (s.stack.take (s.stack.length - start)).reverse

/-- Models the JavaScript expression `stackSave.isNotEmpty`: a JavaScript
array has no `isNotEmpty` property (that is a Dart API), so the access
yields `undefined`, which is falsy — the flush guard in `Program.optimize`
is therefore never satisfied. -/
def jsIsNotEmpty (_l : List StackElem) : Bool := false

/-- The opcode loop of `Program.optimize`: before each opcode, snapshot the
stack suffix since `stackBound` when the top is a literal; perform the
opcode against the optimization context; when the new top is not a literal,
flush the snapshot (guarded by the always-false `jsIsNotEmpty`, see there),
emit the opcode itself, and advance `stackBound` to the current depth.
Returns the final context, the emitted opcodes and the final bound. -/
def optGo : List Opcode → OptCtx → List Opcode → ℕ →
    Except Err (OptCtx × List Opcode × ℕ)
  | [], s, newOps, stackBound => .ok (s, newOps, stackBound)
  | op :: rest, s, newOps, stackBound => do
    let stackSave : Option (List StackElem) :=
      if ¬s.stack.isEmpty ∧ topIsLiteral s then some (stackSince s stackBound)
      else none
    let s1 ← performOp OptOps op s
    if topIsLiteral s1 then
      optGo rest s1 newOps stackBound
    else
      let flushed :=
        match stackSave with
        | some l =>
          if jsIsNotEmpty l then newOps ++ l.map StackElem.toOpcode else newOps
        | none => newOps
      optGo rest s1 (flushed ++ [op]) s1.stack.length

/-- `Program.optimize`: replay the opcodes symbolically; if the final top is
a literal the whole program folded to one number opcode; otherwise return
the re-emitted opcodes when strictly fewer than the original, else the
program itself. -/
def Program.optimize (p : Program) : Except Err Program := do
  let (s, newOps, _) ← optGo p.ops ⟨[], [], false⟩ [] 0
  if topIsLiteral s then
    return ⟨[⟨.numberLiteral, .num (topValue s)⟩]⟩
  else if newOps.length < p.ops.length then
    return ⟨newOps⟩
  else
    return p

/- ## Multi-context binding model (for the `pushStack` rebinding claim) -/

/-- A name for one of two distinct calculation contexts, A and B. -/
inductive CtxName where
  | A
  | B
deriving DecidableEq, Repr

/-- A `_StackElement` with its context back-reference explicit: a
`_VariableReference` records the context it was created against
(`this.context`). -/
inductive BoundElem where
  | lit (v : ℚ)
  | varRef (name : String) (owner : CtxName)
deriving DecidableEq, Repr

/-- `_StackElement.bind(context)` with the context argument explicit.
`_Literal.bind` returns `this`; `_VariableReference.bind` returns
`new _VariableReference(this.name, this.context)` — it constructs the new
reference from `this.context`, not from the `context` argument, which is
unused. -/
def bindToContext (_context : CtxName) (e : BoundElem) : BoundElem :=
  match e with
  | .lit v => .lit v
  | .varRef n owner => .varRef n owner

/-- Register stores of the two contexts plus context B's stack (the only
stack this model pushes into). -/
structure TwoCtxWorld where
  regsA : String → Option ℚ
  regsB : String → Option ℚ
  stackB : List BoundElem

/-- `_StackCalculationContext.pushStack` on context B:
`this._stack.push(newElement.bind(this))`. -/
def pushStackIntoB (w : TwoCtxWorld) (e : BoundElem) : TwoCtxWorld :=
  { w with stackB := bindToContext .B e :: w.stackB }

/-- `_StackElement.value` in the two-context world: a literal's value, or
`owner.getRegister(name) ?? 0` looked up in the element's recorded owner
context. -/
def resolveElem (w : TwoCtxWorld) (e : BoundElem) : ℚ :=
  match e with
  | .lit v => v
  | .varRef n owner =>
    (match owner with
     | .A => w.regsA n
     | .B => w.regsB n).getD 0

/-- A world where register `x` is 1 in context A and 2 in context B. -/
def worldX12 : TwoCtxWorld :=
  ⟨fun n => if n = "x" then some 1 else none,
   fun n => if n = "x" then some 2 else none, []⟩

deriving instance DecidableEq for Except

/- ## Shared concrete programs and contexts -/

/-- The opcodes `newProgram "a+1"` compiles to. -/
def progA1 : Program :=
  ⟨[⟨.identifier, .str "a"⟩, ⟨.numberLiteral, .num 1⟩, ⟨.opAdd, .null⟩]⟩

/-- What `Program.optimize` actually returns on `progA1`: the
`numberLiteral 1` opcode has been dropped. -/
def progA1opt : Program :=
  ⟨[⟨.identifier, .str "a"⟩, ⟨.opAdd, .null⟩]⟩

/-- A context whose register `a` holds 10. -/
def ctxA10 : ExecCtx := ⟨[], fun n => if n = "a" then some 10 else none⟩

/-- A context whose register `a` holds 5 (the state after `execute "a=5"`). -/
def ctxA5 : ExecCtx := ⟨[], fun n => if n = "a" then some 5 else none⟩

/-- The opcode kinds whose perform rules never touch a register: number
literals and the five arithmetic operators.  An `identifier` opcode pushes a
variable reference whose later value read goes through the registers, and
`opAssign` writes one, so both are excluded. -/
def registerFreeKinds : List Kind :=
  [.numberLiteral, .opAdd, .opSubtract, .opMultiply, .opDivide, .opPower]

/-- An opcode that never touches a register. -/
def RegisterFree (op : Opcode) : Prop := op.kind ∈ registerFreeKinds

/- ## Claim theorems -/

/-- C1: the optimizer is *not* semantics-preserving — evaluating the code at
the failing input `newProgram("a+1")`.  The unoptimized program executes to
1 on a fresh context (register `a` unset, treated as 0) and to 11 when `a`
is 10, but `optimize` emits only `[identifier a, opAdd]` (the guard
`stackSave.isNotEmpty` is always falsy on a JavaScript array, so the pending
`numberLiteral 1` is never flushed), and executing the optimized program
pops an empty stack and throws a `TypeError` on every context. -/
theorem claim1_optimize_drops_opcodes :
    newProgram "a+1" = .ok progA1 ∧
    progA1.execute freshCtx = .ok (1, freshCtx) ∧
    progA1.execute ctxA10 = .ok (11, ctxA10) ∧
    progA1.optimize = .ok progA1opt ∧
    progA1opt.execute freshCtx = .error .typeErrorUndefined ∧
    progA1opt.execute ctxA10 = .error .typeErrorUndefined := by
  refine ⟨by with_unfolding_all decide, ?_, ?_, by with_unfolding_all decide, ?_, ?_⟩ <;>
    with_unfolding_all rfl

/-- C2: `"-3**2"` does not evaluate to 9.  `_valueExpression` folds the
minus sign into the literal's text but builds the opcode from the *minus*
token, so the compiled program is `[opSubtract "-3", numberLiteral 2,
opPower]`; executing it performs the subtraction rule on an empty stack and
throws a `TypeError`. -/
theorem claim2_unary_minus_emits_subtract_opcode :
    newProgram "-3**2" =
      .ok ⟨[⟨.opSubtract, .str "-3"⟩, ⟨.numberLiteral, .num 2⟩,
            ⟨.opPower, .null⟩]⟩ ∧
    (Program.mk [⟨.opSubtract, .str "-3"⟩, ⟨.numberLiteral, .num 2⟩,
                 ⟨.opPower, .null⟩]).execute freshCtx =
      .error .typeErrorUndefined := by
  exact ⟨by with_unfolding_all decide, by with_unfolding_all rfl⟩

/-- C3: `pushStack` does *not* rebind the pushed element to the receiving
context.  `_VariableReference.bind` ignores its `context` argument and keeps
the origin context, so a reference to `x` created against context A and
pushed into context B's stack still resolves through A's registers: with
`x = 1` in A and `x = 2` in B, the element on B's stack resolves to 1,
not 2. -/
theorem claim3_bind_keeps_origin_context :
    (∀ (target : CtxName) (n : String) (owner : CtxName),
      bindToContext target (.varRef n owner) = .varRef n owner) ∧
    (pushStackIntoB worldX12 (.varRef "x" .A)).stackB.head? =
      some (.varRef "x" .A) ∧
    resolveElem (pushStackIntoB worldX12 (.varRef "x" .A))
      (.varRef "x" .A) = 1 ∧
    worldX12.regsB "x" = some 2 ∧ (1 : ℚ) ≠ 2 := by
  refine ⟨fun _ _ _ => rfl, rfl, by with_unfolding_all rfl, rfl, by norm_num⟩

/-- C5: a second optimization pass does not complete without error.  On
`newProgram "a+1"`, the first `optimize` produces the (broken) program
`[identifier a, opAdd]`; replaying that program in the optimization context
pops the symbolic stack below empty inside the `opAdd` rule and throws a
`TypeError` instead of completing. -/
theorem claim5_second_optimize_throws :
    newProgram "a+1" = .ok progA1 ∧
    progA1.optimize = .ok progA1opt ∧
    progA1opt.optimize = .error .typeErrorUndefined := by
  exact ⟨by with_unfolding_all decide, by with_unfolding_all decide,
    by with_unfolding_all rfl⟩

/-- C6: exponent chains parse left-associatively.  For arbitrary number
literals `a ** b ** c` (token level, with arbitrary literal texts), the
compiler emits the opcode order `(a, b, power, c, power)`, i.e. `(a**b)**c`;
in particular `"2**3**2"` compiles to that order and executes to 64,
not 512. -/
theorem claim6_power_left_assoc :
    (∀ sa sb sc : String,
      parseTokens [⟨.numberLiteral, some sa⟩, ⟨.opPower, none⟩,
                   ⟨.numberLiteral, some sb⟩, ⟨.opPower, none⟩,
                   ⟨.numberLiteral, some sc⟩] =
        .ok ([⟨.numberLiteral, .num (jsToNumber (some sa))⟩,
              ⟨.numberLiteral, .num (jsToNumber (some sb))⟩, ⟨.opPower, .null⟩,
              ⟨.numberLiteral, .num (jsToNumber (some sc))⟩, ⟨.opPower, .null⟩],
          5)) ∧
    newProgram "2**3**2" =
      .ok ⟨[⟨.numberLiteral, .num 2⟩, ⟨.numberLiteral, .num 3⟩,
            ⟨.opPower, .null⟩, ⟨.numberLiteral, .num 2⟩, ⟨.opPower, .null⟩]⟩ ∧
    (Program.mk [⟨.numberLiteral, .num 2⟩, ⟨.numberLiteral, .num 3⟩,
                 ⟨.opPower, .null⟩, ⟨.numberLiteral, .num 2⟩,
                 ⟨.opPower, .null⟩]).execute freshCtx = .ok (64, freshCtx) ∧
    (64 : ℚ) ≠ 512 := by
  refine ⟨fun sa sb sc => by with_unfolding_all rfl,
    by with_unfolding_all decide, by with_unfolding_all rfl, by norm_num⟩

/-- C7: assignment semantics.  On a fresh context, `"a=5"` compiles to
`[identifier a, numberLiteral 5, opAssign]`, executes to 5 and leaves
register `a` at 5, after which `"a+1"` executes to 6 in the same context.
Generally, the `opAssign` rule pops the value (reading it, through the
registers for a variable reference), then pops the target: a variable
reference target receives the value in its context's register and the value
is pushed back as a literal; a literal target raises the runtime error, as
does an exhausted stack. -/
theorem claim7_assign_semantics :
    newProgram "a=5" =
      .ok ⟨[⟨.identifier, .str "a"⟩, ⟨.numberLiteral, .num 5⟩,
            ⟨.opAssign, .null⟩]⟩ ∧
    (Program.mk [⟨.identifier, .str "a"⟩, ⟨.numberLiteral, .num 5⟩,
                 ⟨.opAssign, .null⟩]).execute freshCtx = .ok (5, ctxA5) ∧
    ctxA5.regs "a" = some 5 ∧
    newProgram "a+1" = .ok progA1 ∧
    progA1.execute ctxA5 = .ok (6, ctxA5) ∧
    (∀ (v : ℚ) (n : String) (rest : List StackElem) (regs : String → Option ℚ),
      performOp ExecOps ⟨.opAssign, .null⟩ ⟨.lit v :: .varRef n :: rest, regs⟩ =
        .ok ⟨.lit v :: rest, fun m => if m = n then some v else regs m⟩) ∧
    (∀ (m n : String) (rest : List StackElem) (regs : String → Option ℚ),
      performOp ExecOps ⟨.opAssign, .null⟩
          ⟨.varRef m :: .varRef n :: rest, regs⟩ =
        .ok ⟨.lit ((regs m).getD 0) :: rest,
             fun k => if k = n then some ((regs m).getD 0) else regs k⟩) ∧
    (∀ (v w : ℚ) (rest : List StackElem) (regs : String → Option ℚ),
      performOp ExecOps ⟨.opAssign, .null⟩ ⟨.lit v :: .lit w :: rest, regs⟩ =
        .error .literalAssign) ∧
    (∀ (v : ℚ) (regs : String → Option ℚ),
      performOp ExecOps ⟨.opAssign, .null⟩ ⟨[.lit v], regs⟩ =
        .error .typeErrorUndefined) := by
  refine ⟨by with_unfolding_all decide, by with_unfolding_all rfl, rfl,
    by with_unfolding_all decide, by with_unfolding_all rfl,
    fun v n rest regs => rfl, fun m n rest regs => rfl,
    fun v w rest regs => rfl, fun v regs => rfl⟩

/-- C8 counterexample: both parts of the claim fail on concrete sources
containing an unmatched open bracket.  `newProgram "(1+2"` does fail, but
not with a `CalculationParseException`: the inner expression consumes all
tokens and `_valueExpression` then reads `tokens[4].kind` out of range,
throwing a `TypeError` (property access on `undefined`) before the
closing-bracket check can raise its parse error.  And `newProgram "(1)("`
raises nothing at all: the unmatched open bracket sits in the trailing
tokens past the parsed expression, which the constructor silently discards,
so a `Program` value *is* produced. -/
theorem claim8_missing_bracket_eof_counterexample :
    newProgram "(1+2" = .error .typeErrorUndefined ∧
    Err.typeErrorUndefined.isParseException = false ∧
    newProgram "(1)(" = .ok ⟨[⟨.numberLiteral, .num 1⟩]⟩ := by
  exact ⟨by with_unfolding_all rfl, rfl, by with_unfolding_all decide⟩

/-- C8 amended: the `"Ouch, no closing bracket"` parse error is raised
exactly when the token after the bracketed sub-expression exists and is not
a close bracket, as in `"(1 2"`.  When the tokens end right after the
sub-expression (`"(1+2"`), construction fails instead with an out-of-range
token access (`TypeError`), not a parse error; and when the unmatched open
bracket lies in trailing tokens past the parsed expression (`"(1)("`),
construction succeeds and the bracket is silently discarded with the rest
of the trailing tokens. -/
theorem claim8_missing_bracket_amended :
    newProgram "(1 2" = .error .noClosingBracket ∧
    Err.noClosingBracket.isParseException = true ∧
    newProgram "(1+2" = .error .typeErrorUndefined ∧
    Err.typeErrorUndefined.isParseException = false ∧
    newProgram "(1)(" = .ok ⟨[⟨.numberLiteral, .num 1⟩]⟩ := by
  exact ⟨by with_unfolding_all rfl, rfl, by with_unfolding_all rfl, rfl,
    by with_unfolding_all decide⟩

/-- C10 counterexample: a complete expression followed by extra tokens does
*not* always construct successfully.  `"1"` alone compiles (one complete
expression), but `"1 +"` — the same complete expression followed by the
extra token `+` — is consumed further by the additive level, which then
reads past the end of the token list and throws a `TypeError`. -/
theorem claim10_trailing_extra_counterexample :
    newProgram "1" = .ok ⟨[⟨.numberLiteral, .num 1⟩]⟩ ∧
    newProgram "1 +" = .error .typeErrorUndefined := by
  exact ⟨by with_unfolding_all decide, by with_unfolding_all rfl⟩

/-- C10 amended: when the first trailing token after a complete leading
expression is not an operator token of any precedence level, construction
succeeds and the `Program` contains only the leading expression's opcodes —
the trailing tokens are silently discarded (the `Program` constructor
ignores `_parseTokens`' returned cursor).  Shown for a number-literal
expression followed by one arbitrary non-operator token, and for the
sources `"1 2"` and `"1)"`; when the trailing token is an operator token
(as in `"1 +"`), the parser instead consumes it and construction can
fail. -/
theorem claim10_trailing_extra_amended (v : String) (t : Token)
    (h : t.kind = .numberLiteral ∨ t.kind = .identifier ∨
      t.kind = .openBracket ∨ t.kind = .closeBracket) :
    parseTokens [⟨.numberLiteral, some v⟩, t] =
      .ok ([⟨.numberLiteral, .num (jsToNumber (some v))⟩], 1) ∧
    newProgram "1 2" = .ok ⟨[⟨.numberLiteral, .num 1⟩]⟩ ∧
    newProgram "1)" = .ok ⟨[⟨.numberLiteral, .num 1⟩]⟩ := by
  obtain ⟨k, tv⟩ := t
  refine ⟨?_, by with_unfolding_all decide, by with_unfolding_all decide⟩
  rcases h with h | h | h | h <;> (simp only at h; subst h) <;> with_unfolding_all rfl

/-- C10 amended, witness: the amended theorem applied at `v = "1"` and a
trailing close-bracket token. -/
theorem claim10_trailing_extra_amended_witness :
    parseTokens [⟨.numberLiteral, some "1"⟩, ⟨.closeBracket, none⟩] =
      .ok ([⟨.numberLiteral, .num (jsToNumber (some "1"))⟩], 1) :=
  (claim10_trailing_extra_amended "1" ⟨.closeBracket, none⟩
    (Or.inr (Or.inr (Or.inr rfl)))).1

/-- Auxiliary for the constant-folding claim: a register-free opcode that
succeeds on an all-literal execution stack leaves an all-literal, non-empty
stack and untouched registers, and behaves identically on the optimization
context (never setting the register-access flag, always ending in a push
that clears `_popped`). -/
theorem performOp_register_free (op : Opcode) (hop : RegisterFree op)
    (vs : List ℚ) (regs : String → Option ℚ) (e' : ExecCtx)
    (h : performOp ExecOps op ⟨vs.map .lit, regs⟩ = .ok e') :
    ∃ (w : ℚ) (ws : List ℚ), e' = ⟨(w :: ws).map .lit, regs⟩ ∧
      ∀ pp : List StackElem,
        performOp OptOps op ⟨vs.map .lit, pp, false⟩ =
          .ok ⟨(w :: ws).map .lit, [], false⟩ := by
  obtain ⟨k, val⟩ := op
  simp only [RegisterFree, registerFreeKinds, List.mem_cons, List.not_mem_nil,
    or_false] at hop
  rcases hop with h1 | h1 | h1 | h1 | h1 | h1 <;> subst h1
  · cases val with
    | num q =>
      simp only [performOp, ExecOps, bindElem, Except.ok.injEq] at h
      exact ⟨q, vs, h.symm, fun pp => by simp [performOp, OptOps, bindElem]⟩
    | null => simp [performOp] at h
    | str s => simp [performOp] at h
  all_goals
    match vs with
    | [] =>
      simp [performOp, popValue, ExecOps, elemValue, Except.instMonad,
        Except.bind, Except.map] at h
    | [x] =>
      simp [performOp, popValue, ExecOps, elemValue, Except.instMonad,
        Except.bind, Except.map] at h
    | x :: y :: vs3 =>
      simp only [performOp, popValue, ExecOps, elemValue, List.map_cons,
        List.head?, List.tail, bindElem, Except.instMonad, Except.bind,
        Except.map, Except.pure, Except.ok.injEq] at h
      exact ⟨_, vs3, h.symm,
        fun pp => by
          simp [performOp, popValue, OptOps, elemValue, bindElem,
            Except.instMonad, Except.bind, Except.map, Except.pure]⟩

/-- Auxiliary for the constant-folding claim: replaying a register-free
opcode list keeps the stacks of the execution and optimization contexts in
lockstep (all literals), and the optimizer emits nothing: the top is a
literal after every opcode, so `newOps` and `stackBound` never change. -/
theorem runOps_optGo_register_free :
    ∀ (ops : List Opcode), (∀ op ∈ ops, RegisterFree op) →
    ∀ (vs : List ℚ) (regs : String → Option ℚ) (ec : ExecCtx),
      runOps ops ⟨vs.map .lit, regs⟩ = .ok ec →
    ∃ vs' : List ℚ, ec = ⟨vs'.map .lit, regs⟩ ∧
      ∀ (pp : List StackElem) (newOps : List Opcode) (bound : ℕ),
        ∃ pp' : List StackElem,
          optGo ops ⟨vs.map .lit, pp, false⟩ newOps bound =
            .ok (⟨vs'.map .lit, pp', false⟩, newOps, bound) := by
  intro ops
  induction ops with
  | nil =>
    intro _ vs regs ec h
    simp only [runOps, Except.ok.injEq] at h
    exact ⟨vs, h.symm, fun pp newOps bound => ⟨pp, by simp [optGo]⟩⟩
  | cons op rest ih =>
    intro hall vs regs ec h
    simp only [runOps, Except.instMonad, Except.bind] at h
    cases hp : performOp ExecOps op ⟨vs.map .lit, regs⟩ with
    | error e => rw [hp] at h; simp at h
    | ok s1 =>
      rw [hp] at h
      obtain ⟨w, ws, rfl, hopt⟩ :=
        performOp_register_free op (hall op (by simp)) vs regs s1 hp
      obtain ⟨vs', hec, hgo⟩ :=
        ih (fun o ho => hall o (by simp [ho])) (w :: ws) regs ec h
      refine ⟨vs', hec, fun pp newOps bound => ?_⟩
      obtain ⟨pp', hgo1⟩ := hgo [] newOps bound
      refine ⟨pp', ?_⟩
      simp only [optGo, Except.instMonad, Except.bind, hopt pp]
      simpa [topIsLiteral] using hgo1

/-- C4: a program none of whose opcodes touches a register (all kinds among
number literal and the five arithmetic operators) that executes successfully
to `v` is optimized to exactly one `numberLiteral` opcode holding `v`, whose
`numOpcodes` is 1 and which executes to `v` on every context. -/
theorem claim4_register_free_folds (ops : List Opcode) (v : ℚ) (ec : ExecCtx)
    (hrf : ∀ op ∈ ops, RegisterFree op)
    (hex : Program.execute ⟨ops⟩ freshCtx = .ok (v, ec)) :
    Program.optimize ⟨ops⟩ = .ok ⟨[⟨.numberLiteral, .num v⟩]⟩ ∧
    Program.numOpcodes ⟨[⟨.numberLiteral, .num v⟩]⟩ = 1 ∧
    ∀ c : ExecCtx, Program.execute ⟨[⟨.numberLiteral, .num v⟩]⟩ c = .ok (v, c) := by
  simp only [Program.execute, Except.instMonad, Except.bind] at hex
  cases hr : runOps ops freshCtx with
  | error e => rw [hr] at hex; simp at hex
  | ok s =>
    rw [hr] at hex
    have h0 : runOps ops ⟨([] : List ℚ).map .lit, fun _ => none⟩ = .ok s := hr
    obtain ⟨vs', rfl, hgo⟩ := runOps_optGo_register_free ops hrf [] _ s h0
    match vs', hex with
    | [], hex => simp [popValue, ExecOps] at hex
    | w :: ws, hex =>
      simp only [popValue, ExecOps, elemValue, List.map_cons, List.head?,
        List.tail, Except.ok.injEq, Prod.mk.injEq] at hex
      obtain ⟨rfl, rfl⟩ := hex
      obtain ⟨pp', hgo1⟩ := hgo [] [] 0
      refine ⟨?_, rfl, fun c => ?_⟩
      · simp only [Program.optimize, Except.instMonad, Except.bind]
        rw [show (⟨[], [], false⟩ : OptCtx) =
          ⟨([] : List ℚ).map .lit, [], false⟩ from rfl, hgo1]
        simp [topIsLiteral, topValue, Except.pure]
      · simp [Program.execute, runOps, performOp, popValue, elemValue, ExecOps,
          bindElem, Except.instMonad, Except.bind, Except.map, Except.pure]

/-- C4, witness: `newProgram "2+3"` compiles to three register-free opcodes
executing to 5, so by the theorem it optimizes to the single opcode
`numberLiteral 5`, which executes to 5. -/
theorem claim4_register_free_folds_witness :
    newProgram "2+3" =
      .ok ⟨[⟨.numberLiteral, .num 2⟩, ⟨.numberLiteral, .num 3⟩,
            ⟨.opAdd, .null⟩]⟩ ∧
    Program.optimize ⟨[⟨.numberLiteral, .num 2⟩, ⟨.numberLiteral, .num 3⟩,
                       ⟨.opAdd, .null⟩]⟩ = .ok ⟨[⟨.numberLiteral, .num 5⟩]⟩ ∧
    Program.numOpcodes ⟨[⟨.numberLiteral, .num 5⟩]⟩ = 1 ∧
    Program.execute ⟨[⟨.numberLiteral, .num 5⟩]⟩ freshCtx = .ok (5, freshCtx) := by
  have h := claim4_register_free_folds
    [⟨.numberLiteral, .num 2⟩, ⟨.numberLiteral, .num 3⟩, ⟨.opAdd, .null⟩] 5
    freshCtx
    (by intro op hop; fin_cases hop <;> simp [RegisterFree, registerFreeKinds])
    (by with_unfolding_all rfl)
  exact ⟨by with_unfolding_all decide, h.1, h.2.1, h.2.2 freshCtx⟩

/-- Auxiliary: dropping `i + k` elements is dropping `k` from the drop at
`i`. -/
theorem drop_shift {l rest : List Char} {i : ℕ} (h : l.drop i = rest) (k : ℕ) :
    l.drop (i + k) = rest.drop k := by
  rw [← h, List.drop_drop]

/-- Auxiliary for the lexer-error claim: whenever `tokenizeGo` reports a
strange character, the exception's buffer is the whole source, its offset is
an in-range position holding exactly the reported character, that character
is not a space, and no symbolic token, number or identifier matches at that
position. -/
theorem tokenizeGo_strange_char (buffer : String) :
    ∀ (fuel : ℕ) (rest : List Char) (i : ℕ), buffer.data.drop i = rest →
    ∀ (c : Char) (b : String) (j : ℕ),
      tokenizeGo buffer fuel rest i = .error (.strangeChar c b j) →
      b = buffer ∧ j < buffer.data.length ∧ buffer.data[j]? = some c ∧
      c ≠ ' ' ∧ findToken (buffer.data.drop j) = none ∧
      matchNumber (buffer.data.drop j) = none ∧
      matchIdent (buffer.data.drop j) = none := by
  intro fuel
  induction fuel with
  | zero => intro rest i _ c b j h; simp [tokenizeGo] at h
  | succ fuel ih =>
    intro rest i hdrop c b j h
    match rest, hdrop with
    | [], hdrop => simp [tokenizeGo] at h
    | ch :: rs, hdrop =>
      rw [tokenizeGo] at h
      by_cases hsp : ch = ' '
      · rw [if_pos hsp] at h
        exact ih rs (i + 1) (by simpa using drop_shift hdrop 1) c b j h
      · rw [if_neg hsp] at h
        cases hf : findToken (ch :: rs) with
        | some ks =>
          obtain ⟨k, s⟩ := ks
          rw [hf] at h
          simp only [bind, Except.bind] at h
          cases hrec : tokenizeGo buffer fuel ((ch :: rs).drop s.length)
              (i + s.length) with
          | error e =>
            rw [hrec] at h
            cases h
            exact ih _ _ (by rw [drop_shift hdrop s.length]) c b j hrec
          | ok ts => rw [hrec] at h; simp [pure, Except.pure] at h
        | none =>
          rw [hf] at h
          cases hn : matchNumber (ch :: rs) with
          | some mr =>
            obtain ⟨m, r⟩ := mr
            rw [hn] at h
            simp only [bind, Except.bind] at h
            cases hrec : tokenizeGo buffer fuel ((ch :: rs).drop m.length)
                (i + m.length) with
            | error e =>
              rw [hrec] at h
              cases h
              exact ih _ _ (by rw [drop_shift hdrop m.length]) c b j hrec
            | ok ts => rw [hrec] at h; simp [pure, Except.pure] at h
          | none =>
            rw [hn] at h
            cases hid : matchIdent (ch :: rs) with
            | some mr =>
              obtain ⟨m, r⟩ := mr
              rw [hid] at h
              simp only [bind, Except.bind] at h
              cases hrec : tokenizeGo buffer fuel ((ch :: rs).drop m.length)
                  (i + m.length) with
              | error e =>
                rw [hrec] at h
                cases h
                exact ih _ _ (by rw [drop_shift hdrop m.length]) c b j hrec
              | ok ts => rw [hrec] at h; simp [pure, Except.pure] at h
            | none =>
              rw [hid] at h
              injection h with h1
              injection h1 with hc hb hj
              subst hc; subst hb; subst hj
              refine ⟨rfl, ?_, ?_, hsp, ?_, ?_, ?_⟩
              · by_contra hle
                push_neg at hle
                have hnil : buffer.data.drop i = [] :=
                  List.drop_eq_nil_iff.mpr hle
                rw [hdrop] at hnil
                cases hnil
              · rw [← List.head?_drop, hdrop]; rfl
              · rw [hdrop]; exact hf
              · rw [hdrop]; exact hn
              · rw [hdrop]; exact hid

/-- C9: whenever the tokenizer fails, the raised parse error carries the
offending character, the full source buffer, and the offset of the failing
position — a position where no symbolic token, no number and no identifier
matches (and which is not a space); in particular `"1+@"` fails with offset
2 and character `@`. -/
theorem claim9_lexer_error_payload (buf : String) (c : Char) (b : String)
    (i : ℕ) (h : tokenize buf = .error (.strangeChar c b i)) :
    b = buf ∧ i < buf.data.length ∧ buf.data[i]? = some c ∧ c ≠ ' ' ∧
    findToken (buf.data.drop i) = none ∧
    matchNumber (buf.data.drop i) = none ∧
    matchIdent (buf.data.drop i) = none ∧
    tokenize "1+@" = .error (.strangeChar '@' "1+@" 2) := by
  have hall := tokenizeGo_strange_char buf (buf.data.length + 1) buf.data 0
    (by simp) c b i (by simpa [tokenize] using h)
  exact ⟨hall.1, hall.2.1, hall.2.2.1, hall.2.2.2.1, hall.2.2.2.2.1,
    hall.2.2.2.2.2.1, hall.2.2.2.2.2.2, by with_unfolding_all rfl⟩

/-- C9, witness: the theorem applied to the source `"1+@"`, whose
tokenization fails at offset 2 on the character `@`. -/
theorem claim9_lexer_error_payload_witness :
    ("1+@" : String) = "1+@" ∧ 2 < ("1+@" : String).data.length ∧
    ("1+@" : String).data[2]? = some '@' ∧ '@' ≠ ' ' ∧
    findToken (("1+@" : String).data.drop 2) = none ∧
    matchNumber (("1+@" : String).data.drop 2) = none ∧
    matchIdent (("1+@" : String).data.drop 2) = none ∧
    tokenize "1+@" = .error (.strangeChar '@' "1+@" 2) :=
  claim9_lexer_error_payload "1+@" '@' "1+@" 2 (by with_unfolding_all rfl)
